import Mathlib

/-!
Verification of the I/O-multiplexed TCP server in `src/tools/cookbook.py`
(class `TCPServer`, class `RequestHandler`) and the echo handler in
`src/tools/echo_tcp_server.py` (class `EchoRequestHandler`).

Shallow embedding.  Sockets are natural-number identifiers.  The selector
registrations (`io_selector`), the message-queue registry
(`self._message_queues`), the single server-level handler slot
(`self._handler`), the set of open (not yet closed) accepted sockets and the
open/closed status of the listening socket form the state.  One iteration of
the `run` loop handling a single readiness event is the step function
`stepF`; the readiness events the selector can actually deliver for a state
are captured by `validEvent`.  A step result of `none` models an exception
propagating out of the `run` loop (crashing it); `some (st, acts)` models the
loop continuing in state `st` after performing the observable actions `acts`.

Byte strings are `List Nat`; `bytes.decode()` / `str.encode()` (strict UTF-8,
Python's default codec) are embedded as `utf8Decode` / `utf8Encode` over code
points, including rejection of overlong forms, surrogates and code points
above 0x10FFFF, exactly as CPython's strict codec does.
-/

/-- Interest a socket is registered for.  The code only ever passes
`selectors.EVENT_READ` (in `_accept` and in `_write` after a send) or
`selectors.EVENT_WRITE` (in `_read` after queueing data); it never registers
a socket for both at once. -/
inductive Interest where
  | Read
  | Write
deriving DecidableEq

/-- Selector value for one registered socket: its interest, and whether its
`data` field is `EV_ACCEPT` (the marker `run` attaches to the listening
socket; connection sockets are registered with the default `data = None`). -/
structure SelData where
  interest : Interest
  isAccept : Bool
deriving DecidableEq

/-- Lookup in an association list keyed by socket id, as a Python `dict`
indexing (`d[k]`) that yields `none` instead of raising `KeyError`. -/
def alookup {α : Type} : List (Nat × α) → Nat → Option α
  | [], _ => none
  | (k, v) :: t, s => if k = s then some v else alookup t s

/-- Replace the value stored under a key that is already present
(a Python `d[k] = v` on an existing key, or `selector.modify`). -/
def aset {α : Type} : List (Nat × α) → Nat → α → List (Nat × α)
  | [], _, _ => []
  | (k, v) :: t, s, w => if k = s then (k, w) :: t else (k, v) :: aset t s w

/-- Delete the first entry stored under a key (a Python `del d[k]`, or
`selector.unregister`, on keys kept duplicate-free). -/
def aremove {α : Type} : List (Nat × α) → Nat → List (Nat × α)
  | [], _ => []
  | (k, v) :: t, s => if k = s then t else (k, v) :: aremove t s

/-- State of the server and its event loop.

  - `listenerSock`: the listening socket `self._socket`;
  - `sel`: the selector's registrations (socket, interest, `data` marker);
  - `queues`: `self._message_queues`, mapping each connection socket to its
    FIFO of pending outbound byte messages (each message a `List Nat`);
  - `handler`: `self._handler`, recording which accepted socket the currently
    stored `RequestHandler` instance was constructed with (`none` models the
    initial `self._handler = None`);
  - `openConns`: accepted client sockets that have not been closed;
  - `listenerOpen`: whether `self._socket` has been closed. -/
structure ServerState where
  listenerSock : Nat
  sel : List (Nat × SelData)
  queues : List (Nat × List (List Nat))
  handler : Option Nat
  openConns : List Nat
  listenerOpen : Bool
deriving DecidableEq

/-- Observable actions of one loop iteration. `handlerCreated n` is
`self._handler = self._RequestHandler(request)` for accepted socket `n`;
`handleCalled h inp` is a completed `self._handler.handle(...)` call where
`h` is the socket the handler instance was constructed with and `inp` the
decoded input; `handleErrorCalled h` is `self._handler.handle_error()`;
`sent s d` is `request.sendall(data)`; `closedSock s` is
`self._close_request(request)`. -/
inductive Act where
  | handlerCreated (sock : Nat)
  | handleCalled (hsock : Nat) (input : List Nat)
  | handleErrorCalled (hsock : Nat)
  | sent (sock : Nat) (data : List Nat)
  | closedSock (sock : Nat)
deriving DecidableEq

/-- Outcome of the single `request.recv(bufsize)` call in `_read`:
some bytes arrived, the peer closed (empty result), or the call raised
`OSError`. -/
inductive RecvRes where
  | data (d : List Nat)
  | eof
  | oserr
deriving DecidableEq

/-- Readiness event delivered by `io_selector.select()` and dispatched by
`run`: the listening socket is ready (`key.data == EV_ACCEPT`), with the
fresh socket id `accept` will return and the outcome of `verify_request`; a
connection socket is ready to read, with the `recv` outcome; or a connection
socket is ready to write, with whether `sendall` succeeds. -/
inductive Ev where
  | acceptEv (newSock : Nat) (verify : Bool)
  | readEv (sock : Nat) (r : RecvRes)
  | writeEv (sock : Nat) (sendOk : Bool)
deriving DecidableEq

/-- Behaviour of a `RequestHandler` subclass's `handle` method: given the
socket the instance was constructed with and the decoded input (a list of
code points), return the outbound bytes, or `none` if `handle` raises. -/
def HandlerFn : Type := Nat → List Nat → Option (List Nat)

/-- Continuation byte test for strict UTF-8: `0x80 ≤ b ≤ 0xBF`. -/
def isCont (b : Nat) : Bool := 0x80 ≤ b && b ≤ 0xBF

/-- Decode one scalar value from the front of a byte list, strict UTF-8
(the behaviour of Python's `bytes.decode()` on a well-formed prefix):
overlong forms, surrogates (lead `0xED` with second byte above `0x9F`) and
values above `0x10FFFF` (lead above `0xF4`) are rejected. -/
def decodeOne : List Nat → Option (Nat × List Nat)
  | [] => none
  | b0 :: bs =>
    if b0 ≤ 0x7F then some (b0, bs)
    else if 0xC2 ≤ b0 && b0 ≤ 0xDF then
      match bs with
      | b1 :: bs1 =>
        if isCont b1 then some ((b0 - 0xC0) * 0x40 + (b1 - 0x80), bs1) else none
      | [] => none
    else if 0xE0 ≤ b0 && b0 ≤ 0xEF then
      match bs with
      | b1 :: b2 :: bs2 =>
        if (if b0 = 0xE0 then 0xA0 ≤ b1 && b1 ≤ 0xBF
            else if b0 = 0xED then 0x80 ≤ b1 && b1 ≤ 0x9F
            else isCont b1) && isCont b2 then
          some ((b0 - 0xE0) * 0x1000 + (b1 - 0x80) * 0x40 + (b2 - 0x80), bs2)
        else none
      | _ => none
    else if 0xF0 ≤ b0 && b0 ≤ 0xF4 then
      match bs with
      | b1 :: b2 :: b3 :: bs3 =>
        if (if b0 = 0xF0 then 0x90 ≤ b1 && b1 ≤ 0xBF
            else if b0 = 0xF4 then 0x80 ≤ b1 && b1 ≤ 0x8F
            else isCont b1) && isCont b2 && isCont b3 then
          some ((b0 - 0xF0) * 0x40000 + (b1 - 0x80) * 0x1000
                  + (b2 - 0x80) * 0x40 + (b3 - 0x80), bs3)
        else none
      | _ => none
    else none

/-- Encode one code point as UTF-8 bytes (Python's `str.encode()` for one
character). -/
def encodeChar (c : Nat) : List Nat :=
  if c ≤ 0x7F then [c]
  else if c ≤ 0x7FF then [0xC0 + c / 0x40, 0x80 + c % 0x40]
  else if c ≤ 0xFFFF then
    [0xE0 + c / 0x1000, 0x80 + c / 0x40 % 0x40, 0x80 + c % 0x40]
  else
    [0xF0 + c / 0x40000, 0x80 + c / 0x1000 % 0x40,
     0x80 + c / 0x40 % 0x40, 0x80 + c % 0x40]

/-- Encode a list of code points as UTF-8 bytes (`str.encode()`). -/
def utf8Encode : List Nat → List Nat
  | [] => []
  | c :: cs => encodeChar c ++ utf8Encode cs

/-- Fuel-indexed strict UTF-8 decoder; each `decodeOne` step consumes at
least one byte, so fuel equal to the byte count never runs out. -/
def utf8DecodeF : Nat → List Nat → Option (List Nat)
  | _, [] => some []
  | 0, _ :: _ => none
  | fuel + 1, b :: bs =>
    match decodeOne (b :: bs) with
    | none => none
    | some (c, rest) => (utf8DecodeF fuel rest).map (fun cs => c :: cs)

/-- Strict UTF-8 decode of a whole byte string (`bytes.decode()`):
`some` of the code points on valid input, `none` when the decode raises
`UnicodeDecodeError`. -/
def utf8Decode (l : List Nat) : Option (List Nat) := utf8DecodeF l.length l

/-- Behaviour of `EchoRequestHandler.handle` from `echo_tcp_server.py`:
`return data.encode()` — encode the received text back to bytes. -/
def echoHandle : HandlerFn := fun _ cs => some (utf8Encode cs)

/-- Behaviour of a handler whose `handle` method always raises. -/
def raisingHandle : HandlerFn := fun _ _ => none

/-- State right after `run` registers the listening socket:
`io_selector.register(self._socket, selectors.EVENT_READ, EV_ACCEPT)`,
with `self._message_queues = {}` and `self._handler = None` from
`__init__`. -/
def initState (ls : Nat) : ServerState :=
  { listenerSock := ls
    sel := [(ls, ⟨Interest.Read, true⟩)]
    queues := []
    handler := none
    openConns := []
    listenerOpen := true }

/-- Model of `TCPServer._cleanup_request`: `io_selector.unregister(request)`
(raising `KeyError`, hence `none`, if the socket is not registered), then
`self._close_request(request)` (shutdown tolerated, then close), then
`del self._message_queues[request]` (raising `KeyError`, hence `none`, if
absent). -/
def cleanupStep (st : ServerState) (s : Nat) : Option (ServerState × List Act) :=
  match alookup st.sel s with
  | none => none
  | some _ =>
    let st1 := { st with
      sel := aremove st.sel s
      openConns := st.openConns.filter (fun x => decide (x ≠ s)) }
    match alookup st1.queues s with
    | none => none
    | some _ => some ({ st1 with queues := aremove st1.queues s },
                      [Act.closedSock s])

/-- One iteration of the `run` loop dispatching a single readiness event.

  - `acceptEv` is the `key.data == EV_ACCEPT` branch calling `_accept`:
    `accept()` yields an open socket; if `verify_request` returns true the
    socket is registered for `EVENT_READ`, given an empty `Queue`, and
    `self._handler = self._RequestHandler(request)`; otherwise nothing else
    happens (in particular the socket is not closed).
  - `readEv` is the `events & EVENT_READ` branch calling `_read` inside
    `try ... except OSError: pass`: a `recv` failure is swallowed with the
    state untouched; nonempty data is appended to the socket's queue
    (`KeyError`, hence `none`, if the registry has no entry) and the interest
    switched to `EVENT_WRITE`; empty data (EOF) triggers
    `_cleanup_request`.
  - `writeEv` is the `events & EVENT_WRITE` branch calling `_write`: pop the
    head message via `get_nowait` (an empty queue just logs), decode it,
    call `self._handler.handle` on the decoded text and `sendall` the
    result, re-registering `EVENT_READ` on success; if the decode, the
    handle call or the send raises, the bare `except:` runs
    `self._handler.handle_error()` and then `_cleanup_request`.  A missing
    registry entry (`KeyError`) or `self._handler` being `None`
    (`AttributeError` escaping the bare `except:` via `handle_error`)
    propagates, hence `none`. -/
def stepF (H : HandlerFn) (st : ServerState) : Ev → Option (ServerState × List Act)
  | Ev.acceptEv n verify =>
    let st1 := { st with openConns := n :: st.openConns }
    if verify then
      some ({ st1 with
                sel := st1.sel ++ [(n, ⟨Interest.Read, false⟩)]
                queues := st1.queues ++ [(n, [])]
                handler := some n },
            [Act.handlerCreated n])
    else
      some (st1, [])
  | Ev.readEv s r =>
    match r with
    | RecvRes.oserr => some (st, [])
    | RecvRes.data d =>
      match alookup st.queues s with
      | none => none
      | some q => some ({ st with
                            queues := aset st.queues s (q ++ [d])
                            sel := aset st.sel s ⟨Interest.Write, false⟩ }, [])
    | RecvRes.eof => cleanupStep st s
  | Ev.writeEv s sendOk =>
    match alookup st.queues s with
    | none => none
    | some [] => some (st, [])
    | some (m :: rest) =>
      let st1 := { st with queues := aset st.queues s rest }
      match st.handler with
      | none => none
      | some hid =>
        match utf8Decode m with
        | none =>
          match cleanupStep st1 s with
          | none => none
          | some (st2, acts) => some (st2, Act.handleErrorCalled hid :: acts)
        | some cs =>
          match H hid cs with
          | none =>
            match cleanupStep st1 s with
            | none => none
            | some (st2, acts) => some (st2, Act.handleErrorCalled hid :: acts)
          | some out =>
            if sendOk then
              some ({ st1 with sel := aset st1.sel s ⟨Interest.Read, false⟩ },
                    [Act.handleCalled hid cs, Act.sent s out])
            else
              match cleanupStep st1 s with
              | none => none
              | some (st2, acts) =>
                some (st2, Act.handleCalled hid cs
                             :: Act.handleErrorCalled hid :: acts)

/-- Socket ids a fresh `accept()` can return: distinct from the listening
socket and from every socket currently tracked anywhere in the state. -/
def freshSock (st : ServerState) (n : Nat) : Bool :=
  decide (n ≠ st.listenerSock) && (alookup st.sel n).isNone
    && (alookup st.queues n).isNone && !(st.openConns.contains n)

/-- Events the selector can actually deliver in a state: the accept branch
requires the listening socket's registration (the `EV_ACCEPT` key);
read/write events are only reported for connection sockets currently
registered with exactly that interest; and a successful `recv` that is
dispatched as data (rather than EOF) returns at least one byte. -/
def validEvent (st : ServerState) : Ev → Bool
  | Ev.acceptEv n _ =>
    (match alookup st.sel st.listenerSock with
     | some d => d.isAccept
     | none => false) && freshSock st n
  | Ev.readEv s r =>
    (match alookup st.sel s with
     | some d => decide (d.interest = Interest.Read) && !d.isAccept
     | none => false)
    && (match r with
        | RecvRes.data d => !d.isEmpty
        | _ => true)
  | Ev.writeEv s _ =>
    match alookup st.sel s with
    | some d => decide (d.interest = Interest.Write) && !d.isAccept
    | none => false

/-- Reachable states of the event loop: the initial registration of the
listening socket, closed under loop iterations on deliverable events. -/
inductive Reachable (H : HandlerFn) (ls : Nat) : ServerState → Prop where
  | init : Reachable H ls (initState ls)
  | step {st st1 : ServerState} {e : Ev} {acts : List Act} :
      Reachable H ls st → validEvent st e = true →
      stepF H st e = some (st1, acts) → Reachable H ls st1

/-- Model of `TCPServer.close`: `if self._socket is not None:
self._socket.close()`.  After a successful `__init__` the attribute is never
`None`, so the body always runs; it closes the listening socket and touches
nothing else (closing an already-closed Python socket raises no error). -/
def closeServer (st : ServerState) : ServerState :=
  { st with listenerOpen := false }

/-- Inductive invariant of the event loop tying together the selector, the
message-queue registry, the handler slot and the open-socket set. -/
structure LoopInv (st : ServerState) : Prop where
  selNodup : (st.sel.map Prod.fst).Nodup
  qNodup : (st.queues.map Prod.fst).Nodup
  listenerReg : alookup st.sel st.listenerSock = some ⟨Interest.Read, true⟩
  acceptUnique : ∀ p ∈ st.sel, p.2.isAccept = true → p.1 = st.listenerSock
  listenerNoQ : alookup st.queues st.listenerSock = none
  regIffQ : ∀ s, s ≠ st.listenerSock →
    ((alookup st.sel s).isSome ↔ (alookup st.queues s).isSome)
  connData : ∀ s q, alookup st.queues s = some q →
    ∃ i, alookup st.sel s = some ⟨i, false⟩ ∧ (i = Interest.Write ↔ q ≠ [])
  qLen : ∀ s q, alookup st.queues s = some q → q.length ≤ 1
  handlerSome : st.queues ≠ [] → st.handler.isSome
  sizes : st.sel.length = st.queues.length + 1
  qOpen : ∀ s, (alookup st.queues s).isSome → s ∈ st.openConns

/-- Reachable state used by concrete witnesses: the loop has accepted client
socket 1 (with `verify_request` true). -/
def rState1 : ServerState :=
  { listenerSock := 0
    sel := [(0, ⟨Interest.Read, true⟩), (1, ⟨Interest.Read, false⟩)]
    queues := [(1, [])]
    handler := some 1
    openConns := [1]
    listenerOpen := true }

/-- Reachable state: after `rState1`, socket 1 delivered the byte `0x68`
(ASCII letter h), so its message was queued and its interest switched to
write. -/
def rState2 : ServerState :=
  { listenerSock := 0
    sel := [(0, ⟨Interest.Read, true⟩), (1, ⟨Interest.Write, false⟩)]
    queues := [(1, [[104]])]
    handler := some 1
    openConns := [1]
    listenerOpen := true }

/-- Reachable state: after `rState1`, socket 1 delivered the lone byte
`0xFF`, which is not valid UTF-8. -/
def rState2b : ServerState :=
  { listenerSock := 0
    sel := [(0, ⟨Interest.Read, true⟩), (1, ⟨Interest.Write, false⟩)]
    queues := [(1, [[255]])]
    handler := some 1
    openConns := [1]
    listenerOpen := true }

/-- Reachable state: after `rState2`, a second client (socket 2) was
accepted, so `self._handler` now holds the handler constructed for socket 2
while socket 1 still has a pending outbound message. -/
def rState3 : ServerState :=
  { listenerSock := 0
    sel := [(0, ⟨Interest.Read, true⟩), (1, ⟨Interest.Write, false⟩),
            (2, ⟨Interest.Read, false⟩)]
    queues := [(1, [[104]]), (2, [])]
    handler := some 2
    openConns := [2, 1]
    listenerOpen := true }

/-- Successor of `rState3` after the write event on socket 1 is processed
with a successful send. -/
def rState4 : ServerState :=
  { listenerSock := 0
    sel := [(0, ⟨Interest.Read, true⟩), (1, ⟨Interest.Read, false⟩),
            (2, ⟨Interest.Read, false⟩)]
    queues := [(1, []), (2, [])]
    handler := some 2
    openConns := [2, 1]
    listenerOpen := true }

theorem alookup_eq_none {α : Type} (l : List (Nat × α)) (s : Nat) :
    alookup l s = none ↔ s ∉ l.map Prod.fst := by
  induction l with
  | nil => simp [alookup]
  | cons p t ih =>
    obtain ⟨k, v⟩ := p
    by_cases hk : k = s
    · subst hk
      simp [alookup]
    · simp [alookup, hk, ih, Ne.symm hk]

theorem alookup_append {α : Type} (l1 l2 : List (Nat × α)) (s : Nat) :
    alookup (l1 ++ l2) s =
      match alookup l1 s with
      | some v => some v
      | none => alookup l2 s := by
  induction l1 with
  | nil => simp [alookup]
  | cons p t ih =>
    obtain ⟨k, v⟩ := p
    by_cases hk : k = s
    · simp [alookup, hk]
    · simp [alookup, hk, ih]

theorem aset_absent {α : Type} (l : List (Nat × α)) (s : Nat) (w : α)
    (h : alookup l s = none) : aset l s w = l := by
  induction l with
  | nil => simp [aset]
  | cons p t ih =>
    obtain ⟨k, v⟩ := p
    by_cases hk : k = s
    · simp [alookup, hk] at h
    · simp [alookup, hk] at h
      simp [aset, hk, ih h]

theorem alookup_aset_self {α : Type} (l : List (Nat × α)) (s : Nat) (w : α)
    (h : (alookup l s).isSome) : alookup (aset l s w) s = some w := by
  induction l with
  | nil => simp [alookup] at h
  | cons p t ih =>
    obtain ⟨k, v⟩ := p
    by_cases hk : k = s
    · simp [aset, hk, alookup]
    · simp [alookup, hk] at h
      simp [aset, hk, alookup, ih h]

theorem alookup_aset_ne {α : Type} (l : List (Nat × α)) (s x : Nat) (w : α)
    (h : x ≠ s) : alookup (aset l s w) x = alookup l x := by
  induction l with
  | nil => simp [aset]
  | cons p t ih =>
    obtain ⟨k, v⟩ := p
    by_cases hk : k = s
    · subst hk
      simp [aset, alookup, Ne.symm h]
    · simp [aset, hk, alookup, ih]

theorem alookup_aset_isSome {α : Type} (l : List (Nat × α)) (s x : Nat) (w : α) :
    (alookup (aset l s w) x).isSome = (alookup l x).isSome := by
  by_cases hx : x = s
  · subst hx
    cases h : alookup l x with
    | none => rw [aset_absent l x w h, h]
    | some v =>
      rw [alookup_aset_self l x w (by rw [h]; rfl)]
      rfl
  · rw [alookup_aset_ne l s x w hx]

theorem aset_map_fst {α : Type} (l : List (Nat × α)) (s : Nat) (w : α) :
    (aset l s w).map Prod.fst = l.map Prod.fst := by
  induction l with
  | nil => simp [aset]
  | cons p t ih =>
    obtain ⟨k, v⟩ := p
    by_cases hk : k = s
    · simp [aset, hk]
    · simp [aset, hk, ih]

theorem aset_length {α : Type} (l : List (Nat × α)) (s : Nat) (w : α) :
    (aset l s w).length = l.length := by
  have h := congrArg List.length (aset_map_fst l s w)
  simpa using h

theorem mem_aset {α : Type} {l : List (Nat × α)} {s : Nat} {w : α} {p : Nat × α}
    (h : p ∈ aset l s w) : p ∈ l ∨ p = (s, w) := by
  induction l with
  | nil => simp [aset] at h
  | cons q t ih =>
    obtain ⟨k, v⟩ := q
    by_cases hk : k = s
    · subst hk
      simp [aset] at h
      rcases h with h | h
      · right; simp [h]
      · left; simp [h]
    · simp [aset, hk] at h
      rcases h with h | h
      · left; simp [h]
      · rcases ih h with h1 | h1
        · left; simp [h1]
        · right; exact h1

theorem aremove_sublist {α : Type} (l : List (Nat × α)) (s : Nat) :
    (aremove l s).Sublist l := by
  induction l with
  | nil => simp [aremove]
  | cons p t ih =>
    obtain ⟨k, v⟩ := p
    by_cases hk : k = s
    · simp [aremove, hk]
    · simp [aremove, hk]
      exact ih

theorem alookup_aremove_ne {α : Type} (l : List (Nat × α)) (s x : Nat)
    (h : x ≠ s) : alookup (aremove l s) x = alookup l x := by
  induction l with
  | nil => simp [aremove]
  | cons p t ih =>
    obtain ⟨k, v⟩ := p
    by_cases hk : k = s
    · subst hk
      simp [aremove, alookup, Ne.symm h]
    · simp [aremove, hk, alookup, ih]

theorem alookup_aremove_self {α : Type} (l : List (Nat × α)) (s : Nat)
    (h : (l.map Prod.fst).Nodup) : alookup (aremove l s) s = none := by
  induction l with
  | nil => simp [aremove, alookup]
  | cons p t ih =>
    obtain ⟨k, v⟩ := p
    rw [List.map_cons, List.nodup_cons] at h
    by_cases hk : k = s
    · subst hk
      simp only [aremove, if_pos rfl]
      rw [alookup_eq_none]
      exact h.1
    · simp [aremove, hk, alookup, ih h.2]

theorem aremove_length {α : Type} (l : List (Nat × α)) (s : Nat)
    (h : (alookup l s).isSome) : l.length = (aremove l s).length + 1 := by
  induction l with
  | nil => simp [alookup] at h
  | cons p t ih =>
    obtain ⟨k, v⟩ := p
    by_cases hk : k = s
    · simp [aremove, hk]
    · simp [alookup, hk] at h
      simp [aremove, hk, ih h]

theorem inv_init (ls : Nat) : LoopInv (initState ls) := by
  refine ⟨?_, ?_, ?_, ?_, ?_, ?_, ?_, ?_, ?_, ?_, ?_⟩
  · simp [initState]
  · simp [initState]
  · simp [initState, alookup]
  · intro p hp hacc
    simp [initState] at hp
    simp [hp, initState]
  · simp [initState, alookup]
  · intro s hs
    simp [initState] at hs
    simp [initState, alookup, if_neg (Ne.symm hs)]
  · intro s q hq
    simp [initState, alookup] at hq
  · intro s q hq
    simp [initState, alookup] at hq
  · intro h
    simp [initState] at h
  · simp [initState]
  · intro s hs
    simp [initState, alookup] at hs

theorem cleanup_eq (st : ServerState) (s : Nat)
    (hsel : (alookup st.sel s).isSome)
    (hq : (alookup st.queues s).isSome) :
    cleanupStep st s = some
      ({ st with
           sel := aremove st.sel s
           queues := aremove st.queues s
           openConns := st.openConns.filter (fun x => decide (x ≠ s)) },
       [Act.closedSock s]) := by
  obtain ⟨v, hv⟩ := Option.isSome_iff_exists.mp hsel
  obtain ⟨w, hw⟩ := Option.isSome_iff_exists.mp hq
  simp [cleanupStep, hv, hw]

theorem inv_remove (st : ServerState) (s : Nat)
    (selNodup : (st.sel.map Prod.fst).Nodup)
    (qNodup : (st.queues.map Prod.fst).Nodup)
    (listenerReg : alookup st.sel st.listenerSock = some ⟨Interest.Read, true⟩)
    (acceptUnique : ∀ p ∈ st.sel, p.2.isAccept = true → p.1 = st.listenerSock)
    (listenerNoQ : alookup st.queues st.listenerSock = none)
    (regIffQ : ∀ x, x ≠ st.listenerSock →
      ((alookup st.sel x).isSome ↔ (alookup st.queues x).isSome))
    (connData1 : ∀ x q, x ≠ s → alookup st.queues x = some q →
      ∃ i, alookup st.sel x = some ⟨i, false⟩ ∧ (i = Interest.Write ↔ q ≠ []))
    (qLen1 : ∀ x q, x ≠ s → alookup st.queues x = some q → q.length ≤ 1)
    (handlerSome : st.queues ≠ [] → st.handler.isSome)
    (sizes : st.sel.length = st.queues.length + 1)
    (qOpen1 : ∀ x, x ≠ s → (alookup st.queues x).isSome → x ∈ st.openConns)
    (hls : s ≠ st.listenerSock)
    (hsel : (alookup st.sel s).isSome)
    (hq : (alookup st.queues s).isSome) :
    LoopInv { st with
                sel := aremove st.sel s
                queues := aremove st.queues s
                openConns := st.openConns.filter (fun x => decide (x ≠ s)) } := by
  refine ⟨?_, ?_, ?_, ?_, ?_, ?_, ?_, ?_, ?_, ?_, ?_⟩
  · exact List.Nodup.sublist (List.Sublist.map Prod.fst (aremove_sublist st.sel s)) selNodup
  · exact List.Nodup.sublist (List.Sublist.map Prod.fst (aremove_sublist st.queues s)) qNodup
  · show alookup (aremove st.sel s) st.listenerSock = some ⟨Interest.Read, true⟩
    rw [alookup_aremove_ne st.sel s st.listenerSock (Ne.symm hls)]
    exact listenerReg
  · intro p hp hacc
    exact acceptUnique p ((aremove_sublist st.sel s).subset hp) hacc
  · show alookup (aremove st.queues s) st.listenerSock = none
    rw [alookup_aremove_ne st.queues s st.listenerSock (Ne.symm hls)]
    exact listenerNoQ
  · intro x hx
    show (alookup (aremove st.sel s) x).isSome ↔ (alookup (aremove st.queues s) x).isSome
    by_cases hxs : x = s
    · subst hxs
      rw [alookup_aremove_self st.sel x selNodup, alookup_aremove_self st.queues x qNodup]
      rfl
    · rw [alookup_aremove_ne st.sel s x hxs, alookup_aremove_ne st.queues s x hxs]
      exact regIffQ x hx
  · intro x q hxq
    have hxs : x ≠ s := by
      intro e
      subst e
      rw [alookup_aremove_self st.queues x qNodup] at hxq
      cases hxq
    rw [alookup_aremove_ne st.queues s x hxs] at hxq
    obtain ⟨i, hi, hiff⟩ := connData1 x q hxs hxq
    refine ⟨i, ?_, hiff⟩
    show alookup (aremove st.sel s) x = some ⟨i, false⟩
    rw [alookup_aremove_ne st.sel s x hxs]
    exact hi
  · intro x q hxq
    have hxs : x ≠ s := by
      intro e
      subst e
      rw [alookup_aremove_self st.queues x qNodup] at hxq
      cases hxq
    rw [alookup_aremove_ne st.queues s x hxs] at hxq
    exact qLen1 x q hxs hxq
  · intro hne
    apply handlerSome
    intro he
    rw [he] at hne
    simp [aremove] at hne
  · show (aremove st.sel s).length = (aremove st.queues s).length + 1
    have h1 := aremove_length st.sel s hsel
    have h2 := aremove_length st.queues s hq
    omega
  · intro x hx
    have hxs : x ≠ s := by
      intro e
      subst e
      rw [alookup_aremove_self st.queues x qNodup] at hx
      simp at hx
    show x ∈ st.openConns.filter (fun y => decide (y ≠ s))
    rw [alookup_aremove_ne st.queues s x hxs] at hx
    exact List.mem_filter.mpr ⟨qOpen1 x hxs hx, by simp [hxs]⟩

theorem conn_ne_listener (st : ServerState) (s : Nat) (i : Interest)
    (hi : LoopInv st) (hsel : alookup st.sel s = some ⟨i, false⟩) :
    s ≠ st.listenerSock := by
  intro e
  subst e
  rw [hi.listenerReg] at hsel
  simp at hsel

theorem inv_accept_false (st : ServerState) (n : Nat) (hi : LoopInv st) :
    LoopInv { st with openConns := n :: st.openConns } := by
  refine ⟨hi.selNodup, hi.qNodup, hi.listenerReg, hi.acceptUnique, hi.listenerNoQ,
          hi.regIffQ, hi.connData, hi.qLen, hi.handlerSome, hi.sizes, ?_⟩
  intro s hs
  exact List.mem_cons_of_mem n (hi.qOpen s hs)

theorem inv_accept_true (st : ServerState) (n : Nat)
    (hi : LoopInv st) (hf : freshSock st n = true) :
    LoopInv { st with
                sel := st.sel ++ [(n, ⟨Interest.Read, false⟩)]
                queues := st.queues ++ [(n, [])]
                handler := some n
                openConns := n :: st.openConns } := by
  simp only [freshSock, Bool.and_eq_true, decide_eq_true_eq,
    Option.isNone_iff_eq_none] at hf
  obtain ⟨⟨⟨hn1, hn2⟩, hn3⟩, hn4⟩ := hf
  have hnotin : n ∉ st.sel.map Prod.fst := (alookup_eq_none st.sel n).mp hn2
  have hnotinq : n ∉ st.queues.map Prod.fst := (alookup_eq_none st.queues n).mp hn3
  refine ⟨?_, ?_, ?_, ?_, ?_, ?_, ?_, ?_, ?_, ?_, ?_⟩
  · show ((st.sel ++ [(n, (⟨Interest.Read, false⟩ : SelData))]).map Prod.fst).Nodup
    simp only [List.map_append, List.map_cons, List.map_nil]
    refine List.Nodup.append hi.selNodup (List.nodup_singleton n) ?_
    intro a ha hb
    rw [List.mem_singleton] at hb
    subst hb
    exact hnotin ha
  · show ((st.queues ++ [(n, ([] : List (List Nat)))]).map Prod.fst).Nodup
    simp only [List.map_append, List.map_cons, List.map_nil]
    refine List.Nodup.append hi.qNodup (List.nodup_singleton n) ?_
    intro a ha hb
    rw [List.mem_singleton] at hb
    subst hb
    exact hnotinq ha
  · show alookup (st.sel ++ [(n, (⟨Interest.Read, false⟩ : SelData))]) st.listenerSock
      = some ⟨Interest.Read, true⟩
    rw [alookup_append, hi.listenerReg]
  · intro p hp hacc
    rcases List.mem_append.mp hp with hp1 | hp1
    · exact hi.acceptUnique p hp1 hacc
    · simp at hp1
      rw [hp1] at hacc
      simp at hacc
  · show alookup (st.queues ++ [(n, ([] : List (List Nat)))]) st.listenerSock = none
    rw [alookup_append, hi.listenerNoQ]
    simp [alookup, hn1]
  · intro x hx
    show (alookup (st.sel ++ [(n, (⟨Interest.Read, false⟩ : SelData))]) x).isSome
      ↔ (alookup (st.queues ++ [(n, ([] : List (List Nat)))]) x).isSome
    rw [alookup_append, alookup_append]
    by_cases hxn : x = n
    · subst hxn
      rw [hn2, hn3]
      simp [alookup]
    · have hiff := hi.regIffQ x hx
      cases h1 : alookup st.sel x with
      | some v =>
        have h2s : (alookup st.queues x).isSome := hiff.mp (by rw [h1]; rfl)
        obtain ⟨w, hw⟩ := Option.isSome_iff_exists.mp h2s
        rw [hw]
        simp
      | none =>
        have h2 : alookup st.queues x = none := by
          cases h2 : alookup st.queues x with
          | none => rfl
          | some w =>
            have hcon := hiff.mpr (by rw [h2]; rfl)
            rw [h1] at hcon
            cases hcon
        rw [h2]
        simp [alookup, Ne.symm hxn]
  · intro x q hxq
    rw [alookup_append] at hxq
    show ∃ i, alookup (st.sel ++ [(n, (⟨Interest.Read, false⟩ : SelData))]) x
      = some ⟨i, false⟩ ∧ (i = Interest.Write ↔ q ≠ [])
    by_cases hxn : x = n
    · subst hxn
      rw [hn3] at hxq
      simp [alookup] at hxq
      subst hxq
      refine ⟨Interest.Read, ?_, by simp⟩
      rw [alookup_append, hn2]
      simp [alookup]
    · cases h1 : alookup st.queues x with
      | none =>
        rw [h1] at hxq
        simp [alookup, Ne.symm hxn] at hxq
      | some w =>
        rw [h1] at hxq
        simp at hxq
        rw [hxq] at h1
        obtain ⟨i, hsel, hiff⟩ := hi.connData x q h1
        refine ⟨i, ?_, hiff⟩
        rw [alookup_append, hsel]
  · intro x q hxq
    rw [alookup_append] at hxq
    by_cases hxn : x = n
    · subst hxn
      rw [hn3] at hxq
      simp [alookup] at hxq
      subst hxq
      simp
    · cases h1 : alookup st.queues x with
      | none =>
        rw [h1] at hxq
        simp [alookup, Ne.symm hxn] at hxq
      | some w =>
        rw [h1] at hxq
        simp at hxq
        rw [hxq] at h1
        exact hi.qLen x q h1
  · intro _
    rfl
  · show (st.sel ++ [(n, (⟨Interest.Read, false⟩ : SelData))]).length
      = (st.queues ++ [(n, ([] : List (List Nat)))]).length + 1
    simp [List.length_append, hi.sizes]
  · intro x hx
    show x ∈ n :: st.openConns
    rw [alookup_append] at hx
    by_cases hxn : x = n
    · subst hxn
      exact List.mem_cons_self x st.openConns
    · cases h1 : alookup st.queues x with
      | none =>
        rw [h1] at hx
        simp [alookup, Ne.symm hxn] at hx
      | some w =>
        have hw : (alookup st.queues x).isSome := by rw [h1]; rfl
        exact List.mem_cons_of_mem n (hi.qOpen x hw)

theorem inv_read_data (st : ServerState) (s : Nat) (d : List Nat) (q : List (List Nat))
    (hi : LoopInv st)
    (hsel : alookup st.sel s = some ⟨Interest.Read, false⟩)
    (hq : alookup st.queues s = some q) :
    LoopInv { st with
                queues := aset st.queues s (q ++ [d])
                sel := aset st.sel s ⟨Interest.Write, false⟩ } := by
  have hls := conn_ne_listener st s Interest.Read hi hsel
  obtain ⟨i, hsel2, hiff⟩ := hi.connData s q hq
  rw [hsel] at hsel2
  simp at hsel2
  subst hsel2
  have hq0 : q = [] := by
    by_contra hne
    exact absurd (hiff.mpr hne) (by simp)
  have hselSome : (alookup st.sel s).isSome := by rw [hsel]; rfl
  have hqSome : (alookup st.queues s).isSome := by rw [hq]; rfl
  refine ⟨?_, ?_, ?_, ?_, ?_, ?_, ?_, ?_, ?_, ?_, ?_⟩
  · show ((aset st.sel s ⟨Interest.Write, false⟩).map Prod.fst).Nodup
    rw [aset_map_fst]
    exact hi.selNodup
  · show ((aset st.queues s (q ++ [d])).map Prod.fst).Nodup
    rw [aset_map_fst]
    exact hi.qNodup
  · show alookup (aset st.sel s ⟨Interest.Write, false⟩) st.listenerSock
      = some ⟨Interest.Read, true⟩
    rw [alookup_aset_ne st.sel s st.listenerSock _ (Ne.symm hls)]
    exact hi.listenerReg
  · intro p hp hacc
    rcases mem_aset hp with h | h
    · exact hi.acceptUnique p h hacc
    · rw [h] at hacc
      simp at hacc
  · show alookup (aset st.queues s (q ++ [d])) st.listenerSock = none
    rw [alookup_aset_ne st.queues s st.listenerSock _ (Ne.symm hls)]
    exact hi.listenerNoQ
  · intro x hx
    show (alookup (aset st.sel s ⟨Interest.Write, false⟩) x).isSome
      ↔ (alookup (aset st.queues s (q ++ [d])) x).isSome
    rw [alookup_aset_isSome, alookup_aset_isSome]
    exact hi.regIffQ x hx
  · intro x qq hxq
    show ∃ j, alookup (aset st.sel s ⟨Interest.Write, false⟩) x = some ⟨j, false⟩
      ∧ (j = Interest.Write ↔ qq ≠ [])
    by_cases hxs : x = s
    · subst hxs
      rw [alookup_aset_self st.queues x _ hqSome] at hxq
      simp at hxq
      refine ⟨Interest.Write, ?_, ?_⟩
      · rw [alookup_aset_self st.sel x _ hselSome]
      · rw [← hxq]
        simp
    · rw [alookup_aset_ne st.queues s x _ hxs] at hxq
      obtain ⟨j, hj, hjiff⟩ := hi.connData x qq hxq
      refine ⟨j, ?_, hjiff⟩
      rw [alookup_aset_ne st.sel s x _ hxs]
      exact hj
  · intro x qq hxq
    by_cases hxs : x = s
    · subst hxs
      rw [alookup_aset_self st.queues x _ hqSome] at hxq
      simp at hxq
      rw [← hxq, hq0]
      simp
    · rw [alookup_aset_ne st.queues s x _ hxs] at hxq
      exact hi.qLen x qq hxq
  · intro _
    apply hi.handlerSome
    intro he
    rw [he] at hq
    simp [alookup] at hq
  · show (aset st.sel s ⟨Interest.Write, false⟩).length
      = (aset st.queues s (q ++ [d])).length + 1
    rw [aset_length, aset_length]
    exact hi.sizes
  · intro x hx
    show x ∈ st.openConns
    rw [alookup_aset_isSome] at hx
    exact hi.qOpen x hx

theorem inv_write_success (st : ServerState) (s : Nat) (m : List Nat)
    (rest : List (List Nat)) (hi : LoopInv st)
    (hsel : alookup st.sel s = some ⟨Interest.Write, false⟩)
    (hq : alookup st.queues s = some (m :: rest)) :
    LoopInv { st with
                queues := aset st.queues s rest
                sel := aset st.sel s ⟨Interest.Read, false⟩ } := by
  have hls := conn_ne_listener st s Interest.Write hi hsel
  have hlen := hi.qLen s (m :: rest) hq
  rw [List.length_cons] at hlen
  have hrest : rest = [] := List.eq_nil_of_length_eq_zero (by omega)
  have hselSome : (alookup st.sel s).isSome := by rw [hsel]; rfl
  have hqSome : (alookup st.queues s).isSome := by rw [hq]; rfl
  refine ⟨?_, ?_, ?_, ?_, ?_, ?_, ?_, ?_, ?_, ?_, ?_⟩
  · show ((aset st.sel s ⟨Interest.Read, false⟩).map Prod.fst).Nodup
    rw [aset_map_fst]
    exact hi.selNodup
  · show ((aset st.queues s rest).map Prod.fst).Nodup
    rw [aset_map_fst]
    exact hi.qNodup
  · show alookup (aset st.sel s ⟨Interest.Read, false⟩) st.listenerSock
      = some ⟨Interest.Read, true⟩
    rw [alookup_aset_ne st.sel s st.listenerSock _ (Ne.symm hls)]
    exact hi.listenerReg
  · intro p hp hacc
    rcases mem_aset hp with h | h
    · exact hi.acceptUnique p h hacc
    · rw [h] at hacc
      simp at hacc
  · show alookup (aset st.queues s rest) st.listenerSock = none
    rw [alookup_aset_ne st.queues s st.listenerSock _ (Ne.symm hls)]
    exact hi.listenerNoQ
  · intro x hx
    show (alookup (aset st.sel s ⟨Interest.Read, false⟩) x).isSome
      ↔ (alookup (aset st.queues s rest) x).isSome
    rw [alookup_aset_isSome, alookup_aset_isSome]
    exact hi.regIffQ x hx
  · intro x qq hxq
    show ∃ j, alookup (aset st.sel s ⟨Interest.Read, false⟩) x = some ⟨j, false⟩
      ∧ (j = Interest.Write ↔ qq ≠ [])
    by_cases hxs : x = s
    · subst hxs
      rw [alookup_aset_self st.queues x _ hqSome] at hxq
      simp at hxq
      refine ⟨Interest.Read, ?_, ?_⟩
      · rw [alookup_aset_self st.sel x _ hselSome]
      · rw [← hxq, hrest]
        simp
    · rw [alookup_aset_ne st.queues s x _ hxs] at hxq
      obtain ⟨j, hj, hjiff⟩ := hi.connData x qq hxq
      refine ⟨j, ?_, hjiff⟩
      rw [alookup_aset_ne st.sel s x _ hxs]
      exact hj
  · intro x qq hxq
    by_cases hxs : x = s
    · subst hxs
      rw [alookup_aset_self st.queues x _ hqSome] at hxq
      simp at hxq
      rw [← hxq, hrest]
      simp
    · rw [alookup_aset_ne st.queues s x _ hxs] at hxq
      exact hi.qLen x qq hxq
  · intro _
    apply hi.handlerSome
    intro he
    rw [he] at hq
    simp [alookup] at hq
  · show (aset st.sel s ⟨Interest.Read, false⟩).length
      = (aset st.queues s rest).length + 1
    rw [aset_length, aset_length]
    exact hi.sizes
  · intro x hx
    show x ∈ st.openConns
    rw [alookup_aset_isSome] at hx
    exact hi.qOpen x hx

theorem inv_write_fail (st : ServerState) (s : Nat) (m : List Nat)
    (rest : List (List Nat)) (hi : LoopInv st)
    (hsel : alookup st.sel s = some ⟨Interest.Write, false⟩)
    (hq : alookup st.queues s = some (m :: rest)) :
    LoopInv { st with
                sel := aremove st.sel s
                queues := aremove (aset st.queues s rest) s
                openConns := st.openConns.filter (fun x => decide (x ≠ s)) } := by
  have hls := conn_ne_listener st s Interest.Write hi hsel
  have hselSome : (alookup st.sel s).isSome := by rw [hsel]; rfl
  have hqSome : (alookup st.queues s).isSome := by rw [hq]; rfl
  exact inv_remove { st with queues := aset st.queues s rest } s
    hi.selNodup
    (by show ((aset st.queues s rest).map Prod.fst).Nodup
        rw [aset_map_fst]
        exact hi.qNodup)
    hi.listenerReg
    hi.acceptUnique
    (by show alookup (aset st.queues s rest) st.listenerSock = none
        rw [alookup_aset_ne st.queues s st.listenerSock _ (Ne.symm hls)]
        exact hi.listenerNoQ)
    (by intro x hx
        show (alookup st.sel x).isSome ↔ (alookup (aset st.queues s rest) x).isSome
        rw [alookup_aset_isSome]
        exact hi.regIffQ x hx)
    (by intro x qq hxs hxq
        show ∃ j, alookup st.sel x = some ⟨j, false⟩ ∧ (j = Interest.Write ↔ qq ≠ [])
        rw [alookup_aset_ne st.queues s x _ hxs] at hxq
        exact hi.connData x qq hxq)
    (by intro x qq hxs hxq
        rw [alookup_aset_ne st.queues s x _ hxs] at hxq
        exact hi.qLen x qq hxq)
    (by intro _
        apply hi.handlerSome
        intro he
        rw [he] at hq
        simp [alookup] at hq)
    (by show st.sel.length = (aset st.queues s rest).length + 1
        rw [aset_length]
        exact hi.sizes)
    (by intro x hxs hx
        show x ∈ st.openConns
        rw [alookup_aset_ne st.queues s x _ hxs] at hx
        exact hi.qOpen x hx)
    hls
    hselSome
    (by show (alookup (aset st.queues s rest) s).isSome
        rw [alookup_aset_self st.queues s _ hqSome]
        rfl)

theorem inv_step (H : HandlerFn) (st st1 : ServerState) (e : Ev) (acts : List Act)
    (hi : LoopInv st) (hv : validEvent st e = true)
    (hs : stepF H st e = some (st1, acts)) : LoopInv st1 := by
  cases e with
  | acceptEv n verify =>
    have hf : freshSock st n = true := by
      simp only [validEvent, Bool.and_eq_true] at hv
      exact hv.2
    cases verify with
    | false =>
      simp only [stepF, Bool.false_eq_true, if_false, Option.some.injEq,
        Prod.mk.injEq] at hs
      obtain ⟨h1, _⟩ := hs
      subst h1
      exact inv_accept_false st n hi
    | true =>
      simp only [stepF, if_true, Option.some.injEq, Prod.mk.injEq] at hs
      obtain ⟨h1, _⟩ := hs
      subst h1
      exact inv_accept_true st n hi hf
  | readEv s r =>
    simp only [validEvent, Bool.and_eq_true] at hv
    obtain ⟨hv1, hv2⟩ := hv
    cases hsel0 : alookup st.sel s with
    | none =>
      rw [hsel0] at hv1
      cases hv1
    | some d0 =>
      rw [hsel0] at hv1
      simp only [Bool.and_eq_true, decide_eq_true_eq, Bool.not_eq_true'] at hv1
      obtain ⟨hint, hacc⟩ := hv1
      have hsel : alookup st.sel s = some ⟨Interest.Read, false⟩ := by
        rw [hsel0]
        cases d0 with
        | mk i a => rw [show i = Interest.Read from hint, show a = false from hacc]
      cases r with
      | oserr =>
        simp only [stepF, Option.some.injEq, Prod.mk.injEq] at hs
        obtain ⟨h1, _⟩ := hs
        subst h1
        exact hi
      | data d =>
        cases hq : alookup st.queues s with
        | none => simp [stepF, hq] at hs
        | some q =>
          simp only [stepF, hq, Option.some.injEq, Prod.mk.injEq] at hs
          obtain ⟨h1, _⟩ := hs
          subst h1
          exact inv_read_data st s d q hi hsel hq
      | eof =>
        have hls : s ≠ st.listenerSock := conn_ne_listener st s Interest.Read hi hsel
        have hselSome : (alookup st.sel s).isSome := by rw [hsel]; rfl
        have hqSome : (alookup st.queues s).isSome := (hi.regIffQ s hls).mp hselSome
        have hstep : stepF H st (Ev.readEv s RecvRes.eof) = cleanupStep st s := rfl
        rw [hstep, cleanup_eq st s hselSome hqSome] at hs
        simp only [Option.some.injEq, Prod.mk.injEq] at hs
        obtain ⟨h1, _⟩ := hs
        subst h1
        exact inv_remove st s hi.selNodup hi.qNodup hi.listenerReg hi.acceptUnique
          hi.listenerNoQ hi.regIffQ (fun x q _ hxq => hi.connData x q hxq)
          (fun x q _ hxq => hi.qLen x q hxq) hi.handlerSome hi.sizes
          (fun x _ hx => hi.qOpen x hx) hls hselSome hqSome
  | writeEv s sendOk =>
    simp only [validEvent] at hv
    cases hsel0 : alookup st.sel s with
    | none =>
      rw [hsel0] at hv
      cases hv
    | some d0 =>
      rw [hsel0] at hv
      simp only [Bool.and_eq_true, decide_eq_true_eq, Bool.not_eq_true'] at hv
      obtain ⟨hint, hacc⟩ := hv
      have hsel : alookup st.sel s = some ⟨Interest.Write, false⟩ := by
        rw [hsel0]
        cases d0 with
        | mk i a => rw [show i = Interest.Write from hint, show a = false from hacc]
      have hls : s ≠ st.listenerSock := conn_ne_listener st s Interest.Write hi hsel
      have hselSome : (alookup st.sel s).isSome := by rw [hsel]; rfl
      have hqSome : (alookup st.queues s).isSome := (hi.regIffQ s hls).mp hselSome
      cases hq : alookup st.queues s with
      | none =>
        rw [hq] at hqSome
        cases hqSome
      | some q =>
        cases q with
        | nil =>
          simp only [stepF, hq, Option.some.injEq, Prod.mk.injEq] at hs
          obtain ⟨h1, _⟩ := hs
          subst h1
          exact hi
        | cons m rest =>
          have hq1Some : (alookup (aset st.queues s rest) s).isSome := by
            rw [alookup_aset_self st.queues s rest (by rw [hq]; rfl)]
            rfl
          cases hh : st.handler with
          | none => simp [stepF, hq, hh] at hs
          | some hid =>
            have hc := cleanup_eq
              { st with queues := aset st.queues s rest, handler := some hid } s
              hselSome hq1Some
            cases hdec : utf8Decode m with
            | none =>
              simp only [stepF, hq, hh, hdec, hc, Option.some.injEq,
                Prod.mk.injEq] at hs
              obtain ⟨h1, _⟩ := hs
              subst h1
              rw [← hh]
              exact inv_write_fail st s m rest hi hsel hq
            | some cs =>
              cases hH : H hid cs with
              | none =>
                simp only [stepF, hq, hh, hdec, hH, hc, Option.some.injEq,
                  Prod.mk.injEq] at hs
                obtain ⟨h1, _⟩ := hs
                subst h1
                rw [← hh]
                exact inv_write_fail st s m rest hi hsel hq
              | some out =>
                cases sendOk with
                | true =>
                  simp only [stepF, hq, hh, hdec, hH, if_true, Option.some.injEq,
                    Prod.mk.injEq] at hs
                  obtain ⟨h1, _⟩ := hs
                  subst h1
                  rw [← hh]
                  exact inv_write_success st s m rest hi hsel hq
                | false =>
                  simp only [stepF, hq, hh, hdec, hH, Bool.false_eq_true, if_false,
                    hc, Option.some.injEq, Prod.mk.injEq] at hs
                  obtain ⟨h1, _⟩ := hs
                  subst h1
                  rw [← hh]
                  exact inv_write_fail st s m rest hi hsel hq

theorem reachable_inv (H : HandlerFn) (ls : Nat) (st : ServerState)
    (h : Reachable H ls st) : LoopInv st := by
  induction h with
  | init => exact inv_init ls
  | step hr hv hs ih => exact inv_step _ _ _ _ _ ih hv hs

theorem decodeOne_encode (l : List Nat) (c : Nat) (rest : List Nat)
    (h : decodeOne l = some (c, rest)) : encodeChar c ++ rest = l := by
  cases l with
  | nil => simp [decodeOne] at h
  | cons b0 bs =>
    rw [decodeOne.eq_def] at h
    simp only [] at h
    by_cases h1 : b0 ≤ 0x7F
    · rw [if_pos h1] at h
      simp only [Option.some.injEq, Prod.mk.injEq] at h
      obtain ⟨hc, hr⟩ := h
      subst hc
      subst hr
      simp [encodeChar, h1]
    · rw [if_neg h1] at h
      by_cases h2 : (0xC2 ≤ b0 && b0 ≤ 0xDF) = true
      · rw [if_pos h2] at h
        simp only [Bool.and_eq_true, decide_eq_true_eq] at h2
        cases bs with
        | nil => simp at h
        | cons b1 bs1 =>
          dsimp only at h
          by_cases hc1 : isCont b1 = true
          · rw [if_pos hc1] at h
            simp only [isCont, Bool.and_eq_true, decide_eq_true_eq] at hc1
            simp only [Option.some.injEq, Prod.mk.injEq] at h
            obtain ⟨hc, hr⟩ := h
            subst hc
            subst hr
            have e1 : ¬ (b0 - 0xC0) * 0x40 + (b1 - 0x80) ≤ 0x7F := by omega
            have e2 : (b0 - 0xC0) * 0x40 + (b1 - 0x80) ≤ 0x7FF := by omega
            simp only [encodeChar, if_neg e1, if_pos e2, List.cons_append,
              List.nil_append, List.cons.injEq]
            refine ⟨by omega, by omega, trivial⟩
          · rw [if_neg hc1] at h
            simp at h
      · rw [if_neg h2] at h
        by_cases h3 : (0xE0 ≤ b0 && b0 ≤ 0xEF) = true
        · rw [if_pos h3] at h
          simp only [Bool.and_eq_true, decide_eq_true_eq] at h2 h3
          cases bs with
          | nil => simp at h
          | cons b1 bs1 =>
            cases bs1 with
            | nil => simp at h
            | cons b2 bs2 =>
              dsimp only at h
              by_cases hg : ((if b0 = 0xE0 then 0xA0 ≤ b1 && b1 ≤ 0xBF
                  else if b0 = 0xED then 0x80 ≤ b1 && b1 ≤ 0x9F
                  else isCont b1) && isCont b2) = true
              · rw [if_pos hg] at h
                simp only [Bool.and_eq_true] at hg
                obtain ⟨hg1, hg2⟩ := hg
                simp only [isCont, Bool.and_eq_true, decide_eq_true_eq] at hg2
                have hb1 : 0x80 ≤ b1 ∧ b1 ≤ 0xBF ∧ (b0 = 0xE0 → 0xA0 ≤ b1)
                    ∧ (b0 = 0xED → b1 ≤ 0x9F) := by
                  by_cases he : b0 = 0xE0
                  · rw [if_pos he] at hg1
                    simp only [Bool.and_eq_true, decide_eq_true_eq] at hg1
                    exact ⟨by omega, hg1.2, fun _ => hg1.1, fun hed => by omega⟩
                  · rw [if_neg he] at hg1
                    by_cases hed : b0 = 0xED
                    · rw [if_pos hed] at hg1
                      simp only [Bool.and_eq_true, decide_eq_true_eq] at hg1
                      exact ⟨hg1.1, by omega, fun h0 => absurd h0 he, fun _ => hg1.2⟩
                    · rw [if_neg hed] at hg1
                      simp only [isCont, Bool.and_eq_true, decide_eq_true_eq] at hg1
                      exact ⟨hg1.1, hg1.2, fun h0 => absurd h0 he,
                        fun h0 => absurd h0 hed⟩
                obtain ⟨k1, k2, k5, k6⟩ := hb1
                simp only [Option.some.injEq, Prod.mk.injEq] at h
                obtain ⟨hc, hr⟩ := h
                subst hc
                subst hr
                have e1 : ¬ (b0 - 0xE0) * 0x1000 + (b1 - 0x80) * 0x40 + (b2 - 0x80)
                    ≤ 0x7F := by omega
                have e2 : ¬ (b0 - 0xE0) * 0x1000 + (b1 - 0x80) * 0x40 + (b2 - 0x80)
                    ≤ 0x7FF := by omega
                have e3 : (b0 - 0xE0) * 0x1000 + (b1 - 0x80) * 0x40 + (b2 - 0x80)
                    ≤ 0xFFFF := by omega
                simp only [encodeChar, if_neg e1, if_neg e2, if_pos e3,
                  List.cons_append, List.nil_append, List.cons.injEq]
                refine ⟨by omega, by omega, by omega, trivial⟩
              · rw [if_neg hg] at h
                simp at h
        · rw [if_neg h3] at h
          by_cases h4 : (0xF0 ≤ b0 && b0 ≤ 0xF4) = true
          · rw [if_pos h4] at h
            simp only [Bool.and_eq_true, decide_eq_true_eq] at h2 h3 h4
            cases bs with
            | nil => simp at h
            | cons b1 bs1 =>
              cases bs1 with
              | nil => simp at h
              | cons b2 bs2 =>
                cases bs2 with
                | nil => simp at h
                | cons b3 bs3 =>
                  dsimp only at h
                  by_cases hg : ((if b0 = 0xF0 then 0x90 ≤ b1 && b1 ≤ 0xBF
                      else if b0 = 0xF4 then 0x80 ≤ b1 && b1 ≤ 0x8F
                      else isCont b1) && isCont b2 && isCont b3) = true
                  · rw [if_pos hg] at h
                    simp only [Bool.and_eq_true] at hg
                    obtain ⟨⟨hg1, hg2⟩, hg3⟩ := hg
                    simp only [isCont, Bool.and_eq_true, decide_eq_true_eq] at hg2 hg3
                    have hb1 : 0x80 ≤ b1 ∧ b1 ≤ 0xBF ∧ (b0 = 0xF0 → 0x90 ≤ b1)
                        ∧ (b0 = 0xF4 → b1 ≤ 0x8F) := by
                      by_cases he : b0 = 0xF0
                      · rw [if_pos he] at hg1
                        simp only [Bool.and_eq_true, decide_eq_true_eq] at hg1
                        exact ⟨by omega, hg1.2, fun _ => hg1.1, fun hed => by omega⟩
                      · rw [if_neg he] at hg1
                        by_cases hed : b0 = 0xF4
                        · rw [if_pos hed] at hg1
                          simp only [Bool.and_eq_true, decide_eq_true_eq] at hg1
                          exact ⟨hg1.1, by omega, fun h0 => absurd h0 he,
                            fun _ => hg1.2⟩
                        · rw [if_neg hed] at hg1
                          simp only [isCont, Bool.and_eq_true,
                            decide_eq_true_eq] at hg1
                          exact ⟨hg1.1, hg1.2, fun h0 => absurd h0 he,
                            fun h0 => absurd h0 hed⟩
                    obtain ⟨k1, k2, k5, k6⟩ := hb1
                    simp only [Option.some.injEq, Prod.mk.injEq] at h
                    obtain ⟨hc, hr⟩ := h
                    subst hc
                    subst hr
                    have e1 : ¬ (b0 - 0xF0) * 0x40000 + (b1 - 0x80) * 0x1000
                        + (b2 - 0x80) * 0x40 + (b3 - 0x80) ≤ 0x7F := by omega
                    have e2 : ¬ (b0 - 0xF0) * 0x40000 + (b1 - 0x80) * 0x1000
                        + (b2 - 0x80) * 0x40 + (b3 - 0x80) ≤ 0x7FF := by omega
                    have e3 : ¬ (b0 - 0xF0) * 0x40000 + (b1 - 0x80) * 0x1000
                        + (b2 - 0x80) * 0x40 + (b3 - 0x80) ≤ 0xFFFF := by omega
                    simp only [encodeChar, if_neg e1, if_neg e2, if_neg e3,
                      List.cons_append, List.nil_append, List.cons.injEq]
                    refine ⟨by omega, by omega, by omega, by omega, trivial⟩
                  · rw [if_neg hg] at h
                    simp at h
          · rw [if_neg h4] at h
            simp at h

theorem utf8DecodeF_encode : ∀ (fuel : Nat) (l cs : List Nat),
    utf8DecodeF fuel l = some cs → utf8Encode cs = l := by
  intro fuel
  induction fuel with
  | zero =>
    intro l cs h
    cases l with
    | nil =>
      simp [utf8DecodeF] at h
      subst h
      rfl
    | cons b bs => simp [utf8DecodeF] at h
  | succ fuel ih =>
    intro l cs h
    cases l with
    | nil =>
      simp [utf8DecodeF] at h
      subst h
      rfl
    | cons b bs =>
      rw [utf8DecodeF] at h
      cases hd : decodeOne (b :: bs) with
      | none =>
        rw [hd] at h
        simp at h
      | some p =>
        obtain ⟨c, rest⟩ := p
        rw [hd] at h
        simp only [Option.map_eq_some'] at h
        obtain ⟨cs1, hrec, hcs⟩ := h
        subst hcs
        rw [utf8Encode, ih rest cs1 hrec]
        exact decodeOne_encode (b :: bs) c rest hd

theorem utf8_roundtrip (l cs : List Nat) (h : utf8Decode l = some cs) :
    utf8Encode cs = l :=
  utf8DecodeF_encode l.length l cs h

theorem valid_write_sel (st : ServerState) (s : Nat) (sendOk : Bool)
    (hv : validEvent st (Ev.writeEv s sendOk) = true) :
    alookup st.sel s = some ⟨Interest.Write, false⟩ := by
  simp only [validEvent] at hv
  cases hsel0 : alookup st.sel s with
  | none =>
    rw [hsel0] at hv
    cases hv
  | some d0 =>
    rw [hsel0] at hv
    simp only [Bool.and_eq_true, decide_eq_true_eq, Bool.not_eq_true'] at hv
    obtain ⟨hint, hacc⟩ := hv
    cases d0 with
    | mk i a => rw [show i = Interest.Write from hint, show a = false from hacc]

theorem rState1_reach (H : HandlerFn) : Reachable H 0 rState1 :=
  @Reachable.step H 0 (initState 0) rState1 (Ev.acceptEv 1 true)
    [Act.handlerCreated 1] Reachable.init (by decide) rfl

theorem rState2_reach (H : HandlerFn) : Reachable H 0 rState2 :=
  @Reachable.step H 0 rState1 rState2 (Ev.readEv 1 (RecvRes.data [104])) []
    (rState1_reach H) (by decide) rfl

theorem rState2b_reach (H : HandlerFn) : Reachable H 0 rState2b :=
  @Reachable.step H 0 rState1 rState2b (Ev.readEv 1 (RecvRes.data [255])) []
    (rState1_reach H) (by decide) rfl

theorem rState3_reach (H : HandlerFn) : Reachable H 0 rState3 :=
  @Reachable.step H 0 rState2 rState3 (Ev.acceptEv 2 true)
    [Act.handlerCreated 2] (rState2_reach H) (by decide) rfl

/-- Claim C1: in every reachable state of the event loop, every socket
registered with the selector has an interest that is exactly READABLE or
WRITABLE (a single `Interest` value — never both at once), and a connection
socket's outbound message queue is non-empty if and only if its registered
interest is WRITABLE; in particular the moment a write drains the queue the
interest is back to READABLE, since the biconditional holds again in the
successor state. -/
theorem C1_interest_queue (H : HandlerFn) (ls : Nat) (st : ServerState)
    (h : Reachable H ls st) :
    (∀ s d, alookup st.sel s = some d →
      (d.interest = Interest.Read ∨ d.interest = Interest.Write))
    ∧ (∀ s q, alookup st.queues s = some q →
      (Option.map SelData.interest (alookup st.sel s) = some Interest.Write
        ↔ q ≠ [])) := by
  have hi := reachable_inv H ls st h
  constructor
  · intro s d _
    cases hd : d.interest
    · left
      rfl
    · right
      rfl
  · intro s q hq
    obtain ⟨i, hsel, hiff⟩ := hi.connData s q hq
    rw [hsel]
    simpa using hiff

/-- Witness for C1 at the reachable state `rState2`: socket 1 has one queued
message, and indeed its registered interest is WRITABLE. -/
theorem C1_witness :
    ((⟨Interest.Write, false⟩ : SelData).interest = Interest.Read
      ∨ (⟨Interest.Write, false⟩ : SelData).interest = Interest.Write)
    ∧ (Option.map SelData.interest (alookup rState2.sel 1) = some Interest.Write
      ↔ ([[104]] : List (List Nat)) ≠ []) :=
  ⟨(C1_interest_queue echoHandle 0 rState2 (rState2_reach echoHandle)).1 1
      ⟨Interest.Write, false⟩ (by decide),
   (C1_interest_queue echoHandle 0 rState2 (rState2_reach echoHandle)).2 1
      [[104]] (by decide)⟩

/-- Claim C2: in every reachable state the selector's registrations and the
message-queue registry correspond one-to-one, except the listening socket
which is registered but has no registry entry; consequently the number of
selector registrations is always the registry size plus one (the listener). -/
theorem C2_registry_selector (H : HandlerFn) (ls : Nat) (st : ServerState)
    (h : Reachable H ls st) :
    (alookup st.sel st.listenerSock).isSome
    ∧ alookup st.queues st.listenerSock = none
    ∧ (∀ s, s ≠ st.listenerSock →
        ((alookup st.sel s).isSome ↔ (alookup st.queues s).isSome))
    ∧ st.sel.length = st.queues.length + 1 := by
  have hi := reachable_inv H ls st h
  refine ⟨?_, hi.listenerNoQ, hi.regIffQ, hi.sizes⟩
  rw [hi.listenerReg]
  rfl

/-- Witness for C2 at the reachable state `rState1`: the listener (socket 0)
is registered without a registry entry, connection socket 1 is both
registered and in the registry, and the counts match. -/
theorem C2_witness :
    (alookup rState1.sel 0).isSome
    ∧ alookup rState1.queues 0 = none
    ∧ ((alookup rState1.sel 1).isSome ↔ (alookup rState1.queues 1).isSome)
    ∧ rState1.sel.length = rState1.queues.length + 1 :=
  have h := C2_registry_selector echoHandle 0 rState1 (rState1_reach echoHandle)
  ⟨h.1, h.2.1, h.2.2.1 1 (by decide), h.2.2.2⟩

/-- Claim C3 counterexample: the claim says a socket rejected by
`verify_request` is "closed immediately"; in the code the false branch of
`_accept` does nothing at all, so after the deliverable accept event with
`verify_request` false the socket is still open (it stays in `openConns`) and
no close action was performed — the step's action list is empty. -/
theorem C3_counterexample :
    validEvent (initState 0) (Ev.acceptEv 1 false) = true
    ∧ stepF echoHandle (initState 0) (Ev.acceptEv 1 false)
        = some ({ initState 0 with openConns := [1] }, [])
    ∧ 1 ∈ ({ initState 0 with openConns := [1] } : ServerState).openConns := by
  decide

/-- Claim C3 amended: when `verify_request` returns false the just-accepted
socket is never registered with the selector, never entered into the
message-queue registry, and no handler is constructed — but it is NOT closed:
`_accept` simply does nothing with it and the socket is left open. -/
theorem C3_amended (H : HandlerFn) (st : ServerState) (n : Nat) :
    stepF H st (Ev.acceptEv n false)
      = some ({ st with openConns := n :: st.openConns }, [])
    ∧ ({ st with openConns := n :: st.openConns } : ServerState).sel = st.sel
    ∧ ({ st with openConns := n :: st.openConns } : ServerState).queues = st.queues
    ∧ ({ st with openConns := n :: st.openConns } : ServerState).handler
        = st.handler
    ∧ n ∈ ({ st with openConns := n :: st.openConns } : ServerState).openConns :=
  ⟨rfl, rfl, rfl, rfl, List.mem_cons_self n st.openConns⟩

/-- Claim C4 counterexample: the claim says a recv `OSError` tears the
connection down; in the code `_read` re-raises and `run` catches it with
`pass`, so after the deliverable read event reporting the error the reachable
state `rState1` is completely unchanged — socket 1 is still registered, still
has its registry entry, and is still open. -/
theorem C4_counterexample :
    Reachable echoHandle 0 rState1
    ∧ (validEvent rState1 (Ev.readEv 1 RecvRes.oserr) = true
       ∧ stepF echoHandle rState1 (Ev.readEv 1 RecvRes.oserr) = some (rState1, [])
       ∧ alookup rState1.sel 1 = some ⟨Interest.Read, false⟩
       ∧ (alookup rState1.queues 1).isSome
       ∧ 1 ∈ rState1.openConns) :=
  ⟨rState1_reach echoHandle, by decide⟩

/-- Claim C4 amended: when a recv call fails with an `OSError`, the event
loop swallows the error (`except OSError: pass`) and the state is left
completely unchanged: the failing connection is NOT torn down — it stays
registered with its registry entry and open socket — and consequently the
server keeps running and every other connection's registration and queue is
untouched. -/
theorem C4_amended (H : HandlerFn) (st : ServerState) (s : Nat) :
    stepF H st (Ev.readEv s RecvRes.oserr) = some (st, []) := rfl

/-- Claim C7 counterexample: the claim says `close()` unregisters and
releases every live connection and deregisters the listener; on the
reachable state `rState1` with one live connection, `close` leaves the
connection's registry entry, selector registration and open socket intact,
and the listener's registration intact — it only closes the listening
socket. -/
theorem C7_counterexample :
    Reachable echoHandle 0 rState1
    ∧ ((closeServer rState1).listenerOpen = false
       ∧ alookup (closeServer rState1).queues 1 = some []
       ∧ alookup (closeServer rState1).sel 1 = some ⟨Interest.Read, false⟩
       ∧ 1 ∈ (closeServer rState1).openConns
       ∧ alookup (closeServer rState1).sel 0 = some ⟨Interest.Read, true⟩) :=
  ⟨rState1_reach echoHandle, by decide⟩

/-- Claim C7 amended: `close()` closes the listening socket and nothing
else — it neither deregisters any socket (the listener included) nor
releases any live connection: registrations, registry entries, open
connection sockets and the handler slot are all left untouched. -/
theorem C7_amended (st : ServerState) :
    (closeServer st).listenerOpen = false
    ∧ (closeServer st).sel = st.sel
    ∧ (closeServer st).queues = st.queues
    ∧ (closeServer st).openConns = st.openConns
    ∧ (closeServer st).handler = st.handler :=
  ⟨rfl, rfl, rfl, rfl, rfl⟩

/-- Claim C8: `close()` is idempotent — calling it twice yields exactly the
same state as calling it once, and the second call raises no error (the
model's `closeServer` is a total function, matching Python where closing an
already-closed socket does not raise). -/
theorem C8_close_idempotent (st : ServerState) :
    closeServer (closeServer st) = closeServer st := rfl

/-- Claim C9: the echoing handler is the identity on the bytes the client
sent — for every byte sequence x that strict-UTF-8 decodes (to the text the
handler receives), `EchoRequestHandler.handle`, i.e. `data.encode()`,
returns exactly x, so the data sent back equals the data received. -/
theorem C9_echo_identity (hid : Nat) (x cs : List Nat)
    (h : utf8Decode x = some cs) : echoHandle hid cs = some x := by
  show some (utf8Encode cs) = some x
  rw [utf8_roundtrip x cs h]

/-- Witness for C9 on the bytes of `hello` plus newline. -/
theorem C9_witness : echoHandle 0 [104, 101, 108, 108, 111, 10]
    = some [104, 101, 108, 108, 111, 10] :=
  C9_echo_identity 0 [104, 101, 108, 108, 111, 10]
    [104, 101, 108, 108, 111, 10] (by decide)

/-- Claim C5: when the handler transform raises while processing a WRITABLE
event (the queued message decodes, `handle` raises), the bare `except:` in
`_write` keeps the exception from ever reaching the event loop — the step
completes — the handler's error callback `handle_error` is invoked exactly
once (the action list is exactly one `handleErrorCalled` followed by the
close), and the connection is then torn down: deregistered from the
selector, removed from the registry, and its socket closed. -/
theorem C5_handler_failure (H : HandlerFn) (ls : Nat) (st : ServerState)
    (s : Nat) (sendOk : Bool) (m : List Nat) (rest : List (List Nat))
    (cs : List Nat) (hid : Nat)
    (hr : Reachable H ls st)
    (hv : validEvent st (Ev.writeEv s sendOk) = true)
    (hq : alookup st.queues s = some (m :: rest))
    (hh : st.handler = some hid)
    (hdec : utf8Decode m = some cs)
    (hfail : H hid cs = none) :
    (stepF H st (Ev.writeEv s sendOk)).map Prod.snd
      = some [Act.handleErrorCalled hid, Act.closedSock s]
    ∧ (stepF H st (Ev.writeEv s sendOk)).map (fun p => alookup p.1.sel s)
      = some none
    ∧ (stepF H st (Ev.writeEv s sendOk)).map (fun p => alookup p.1.queues s)
      = some none
    ∧ (stepF H st (Ev.writeEv s sendOk)).map
        (fun p => decide (s ∈ p.1.openConns)) = some false := by
  have hi := reachable_inv H ls st hr
  have hsel := valid_write_sel st s sendOk hv
  have hselSome : (alookup st.sel s).isSome := by rw [hsel]; rfl
  have hq1Some : (alookup (aset st.queues s rest) s).isSome := by
    rw [alookup_aset_self st.queues s rest (by rw [hq]; rfl)]
    rfl
  have hc := cleanup_eq
    { st with queues := aset st.queues s rest, handler := some hid } s
    hselSome hq1Some
  have hstep : stepF H st (Ev.writeEv s sendOk)
      = some ({ st with
                  sel := aremove st.sel s
                  queues := aremove (aset st.queues s rest) s
                  handler := some hid
                  openConns := st.openConns.filter (fun x => decide (x ≠ s)) },
              [Act.handleErrorCalled hid, Act.closedSock s]) := by
    simp only [stepF, hq, hh, hdec, hfail, hc]
  rw [hstep]
  refine ⟨rfl, ?_, ?_, ?_⟩
  · simp only [Option.map_some', Option.some.injEq]
    exact alookup_aremove_self st.sel s hi.selNodup
  · simp only [Option.map_some', Option.some.injEq]
    apply alookup_aremove_self
    rw [aset_map_fst]
    exact hi.qNodup
  · simp only [Option.map_some', Option.some.injEq]
    simp [List.mem_filter]

/-- Witness for C5: on the reachable state `rState2` with a handler whose
`handle` always raises, the write event on socket 1 invokes `handle_error`
exactly once and tears the connection down without the exception escaping. -/
theorem C5_witness :
    (stepF raisingHandle rState2 (Ev.writeEv 1 true)).map Prod.snd
      = some [Act.handleErrorCalled 1, Act.closedSock 1]
    ∧ (stepF raisingHandle rState2 (Ev.writeEv 1 true)).map
        (fun p => alookup p.1.sel 1) = some none
    ∧ (stepF raisingHandle rState2 (Ev.writeEv 1 true)).map
        (fun p => alookup p.1.queues 1) = some none
    ∧ (stepF raisingHandle rState2 (Ev.writeEv 1 true)).map
        (fun p => decide (1 ∈ p.1.openConns)) = some false :=
  C5_handler_failure raisingHandle 0 rState2 1 true [104] [] [104] 1
    (rState2_reach raisingHandle) (by decide) (by decide) rfl (by decide) rfl

/-- Claim C10: before invoking the handler, `_write` decodes the queued
bytes as UTF-8 (`next_data.decode()`); when the message is not valid UTF-8
the decode raises and the bare `except:` treats it exactly like a handler
failure: `handle_error` is invoked (exactly once) and the connection is torn
down, and the handler is never called — the action list contains no
`handleCalled`, so non-UTF-8 bytes can never be passed through to the
handler. -/
theorem C10_non_utf8 (H : HandlerFn) (ls : Nat) (st : ServerState)
    (s : Nat) (sendOk : Bool) (m : List Nat) (rest : List (List Nat))
    (hid : Nat)
    (hr : Reachable H ls st)
    (hv : validEvent st (Ev.writeEv s sendOk) = true)
    (hq : alookup st.queues s = some (m :: rest))
    (hh : st.handler = some hid)
    (hdec : utf8Decode m = none) :
    (stepF H st (Ev.writeEv s sendOk)).map Prod.snd
      = some [Act.handleErrorCalled hid, Act.closedSock s]
    ∧ (stepF H st (Ev.writeEv s sendOk)).map (fun p => alookup p.1.sel s)
      = some none
    ∧ (stepF H st (Ev.writeEv s sendOk)).map (fun p => alookup p.1.queues s)
      = some none
    ∧ (stepF H st (Ev.writeEv s sendOk)).map
        (fun p => decide (s ∈ p.1.openConns)) = some false := by
  have hi := reachable_inv H ls st hr
  have hsel := valid_write_sel st s sendOk hv
  have hselSome : (alookup st.sel s).isSome := by rw [hsel]; rfl
  have hq1Some : (alookup (aset st.queues s rest) s).isSome := by
    rw [alookup_aset_self st.queues s rest (by rw [hq]; rfl)]
    rfl
  have hc := cleanup_eq
    { st with queues := aset st.queues s rest, handler := some hid } s
    hselSome hq1Some
  have hstep : stepF H st (Ev.writeEv s sendOk)
      = some ({ st with
                  sel := aremove st.sel s
                  queues := aremove (aset st.queues s rest) s
                  handler := some hid
                  openConns := st.openConns.filter (fun x => decide (x ≠ s)) },
              [Act.handleErrorCalled hid, Act.closedSock s]) := by
    simp only [stepF, hq, hh, hdec, hc]
  rw [hstep]
  refine ⟨rfl, ?_, ?_, ?_⟩
  · simp only [Option.map_some', Option.some.injEq]
    exact alookup_aremove_self st.sel s hi.selNodup
  · simp only [Option.map_some', Option.some.injEq]
    apply alookup_aremove_self
    rw [aset_map_fst]
    exact hi.qNodup
  · simp only [Option.map_some', Option.some.injEq]
    simp [List.mem_filter]

/-- Witness for C10: on the reachable state `rState2b`, whose queued message
is the single non-UTF-8 byte 0xFF, the write event invokes `handle_error`
and tears the connection down; the handler is never called. -/
theorem C10_witness :
    (stepF echoHandle rState2b (Ev.writeEv 1 true)).map Prod.snd
      = some [Act.handleErrorCalled 1, Act.closedSock 1]
    ∧ (stepF echoHandle rState2b (Ev.writeEv 1 true)).map
        (fun p => alookup p.1.sel 1) = some none
    ∧ (stepF echoHandle rState2b (Ev.writeEv 1 true)).map
        (fun p => alookup p.1.queues 1) = some none
    ∧ (stepF echoHandle rState2b (Ev.writeEv 1 true)).map
        (fun p => decide (1 ∈ p.1.openConns)) = some false :=
  C10_non_utf8 echoHandle 0 rState2b 1 true [255] [] 1
    (rState2b_reach echoHandle) (by decide) (by decide) rfl (by decide)

/-- Claim C6 counterexample: the claim says each connection's events are
processed with that connection's own handler; in the reachable state
`rState3` two clients (sockets 1 and 2) are live and `self._handler` holds
the handler built for socket 2 (the most recent accept), so processing the
WRITABLE event of socket 1 calls the handler bound to socket 2 — the action
is `handleCalled 2`, not `handleCalled 1`. -/
theorem C6_counterexample :
    Reachable echoHandle 0 rState3
    ∧ (rState3.handler = some 2
       ∧ alookup rState3.queues 1 = some [[104]]
       ∧ validEvent rState3 (Ev.writeEv 1 true) = true
       ∧ stepF echoHandle rState3 (Ev.writeEv 1 true)
           = some (rState4, [Act.handleCalled 2 [104], Act.sent 1 [104]])
       ∧ (2 : Nat) ≠ 1) :=
  ⟨rState3_reach echoHandle, by decide⟩

/-- Claim C6 amended: the server keeps a single handler slot
(`self._handler`), overwritten at every accept with the handler constructed
for the most recently admitted connection; processing any connection's
WRITABLE event invokes whatever handler that slot currently holds — every
`handleCalled`/`handleErrorCalled` a write step performs carries exactly the
slot's handler, regardless of which connection the event belongs to. -/
theorem C6_amended (H : HandlerFn) (st st1 : ServerState) (s : Nat)
    (sendOk : Bool) (acts : List Act) (hid : Nat) (inp : List Nat)
    (hs : stepF H st (Ev.writeEv s sendOk) = some (st1, acts))
    (hm : Act.handleCalled hid inp ∈ acts ∨ Act.handleErrorCalled hid ∈ acts) :
    st.handler = some hid := by
  cases hq : alookup st.queues s with
  | none => simp [stepF, hq] at hs
  | some q =>
    cases q with
    | nil =>
      simp only [stepF, hq, Option.some.injEq, Prod.mk.injEq] at hs
      obtain ⟨_, h2⟩ := hs
      subst h2
      simp at hm
    | cons m rest =>
      cases hh : st.handler with
      | none => simp [stepF, hq, hh] at hs
      | some hid0 =>
        cases hdec : utf8Decode m with
        | none =>
          cases h1 : alookup st.sel s with
          | none => simp [stepF, hq, hh, hdec, cleanupStep, h1] at hs
          | some v =>
            have hselSome : (alookup st.sel s).isSome := by rw [h1]; rfl
            have hq1Some : (alookup (aset st.queues s rest) s).isSome := by
              rw [alookup_aset_self st.queues s rest (by rw [hq]; rfl)]
              rfl
            have hc := cleanup_eq
              { st with queues := aset st.queues s rest, handler := some hid0 } s
              hselSome hq1Some
            simp only [stepF, hq, hh, hdec, hc, Option.some.injEq,
              Prod.mk.injEq] at hs
            obtain ⟨_, h2⟩ := hs
            subst h2
            simp at hm
            rw [hm]
        | some cs =>
          cases hH : H hid0 cs with
          | none =>
            cases h1 : alookup st.sel s with
            | none => simp [stepF, hq, hh, hdec, hH, cleanupStep, h1] at hs
            | some v =>
              have hselSome : (alookup st.sel s).isSome := by rw [h1]; rfl
              have hq1Some : (alookup (aset st.queues s rest) s).isSome := by
                rw [alookup_aset_self st.queues s rest (by rw [hq]; rfl)]
                rfl
              have hc := cleanup_eq
                { st with
                    queues := aset st.queues s rest
                    handler := some hid0 } s hselSome hq1Some
              simp only [stepF, hq, hh, hdec, hH, hc, Option.some.injEq,
                Prod.mk.injEq] at hs
              obtain ⟨_, h2⟩ := hs
              subst h2
              simp at hm
              rw [hm]
          | some out =>
            cases sendOk with
            | true =>
              simp only [stepF, hq, hh, hdec, hH, if_true, Option.some.injEq,
                Prod.mk.injEq] at hs
              obtain ⟨_, h2⟩ := hs
              subst h2
              simp at hm
              rw [hm.1]
            | false =>
              cases h1 : alookup st.sel s with
              | none =>
                simp [stepF, hq, hh, hdec, hH, cleanupStep, h1] at hs
              | some v =>
                have hselSome : (alookup st.sel s).isSome := by rw [h1]; rfl
                have hq1Some : (alookup (aset st.queues s rest) s).isSome := by
                  rw [alookup_aset_self st.queues s rest (by rw [hq]; rfl)]
                  rfl
                have hc := cleanup_eq
                  { st with
                      queues := aset st.queues s rest
                      handler := some hid0 } s hselSome hq1Some
                simp only [stepF, hq, hh, hdec, hH, Bool.false_eq_true,
                  if_false, hc, Option.some.injEq, Prod.mk.injEq] at hs
                obtain ⟨_, h2⟩ := hs
                subst h2
                simp at hm
                rcases hm with hm1 | hm1
                · rw [hm1.1]
                · rw [hm1]

/-- Witness for the amended C6 at the concrete two-client trace: the write
event of socket 1 in `rState3` used the slot's handler, the one built for
socket 2. -/
theorem C6_amended_witness : rState3.handler = some 2 :=
  C6_amended echoHandle rState3 rState4 1 true
    [Act.handleCalled 2 [104], Act.sent 1 [104]] 2 [104] (by decide) (by decide)
